import Mathlib

/-!
Verification development for the pennylane-snowflurry converter
(`pennylane_snowflurry/pennylane_converter.py`).

The Python source drives an external Julia backend (Snowflurry) through string
evaluation.  We embed the converter shallowly:

* a Snowflurry instruction pushed by `convert_circuit` is the formatted Julia
  expression string (`push!(sf_circuit, <expr>)`);
* a `readout(q, b)` push is kept structurally;
* instructions already living in the backend circuit, as the introspection
  layer (`get_circuit_as_dictionary`) sees them through `str(inst)`, are
  modelled by the variants their printed form is documented to take in the
  source docstring (a Gate object whose repr contains `Gate Object: <name>`,
  a Readout object whose repr contains `Readout`), plus a variant for
  instructions whose repr matches neither pattern;
* Python exceptions that escape a function are modelled by `Option`
  (`none` = the call raises);
* backend calls (`simulate_shots`, `simulate`, `get_measurement_probabilities`,
  `expected_value`, remote submission) are oracle fields of a `Backend`
  structure: their results are opaque to the converter.
-/

namespace SF

/-- A Python value, as far as the converter compares them: ints and lists.
`connected_qubits` entries of the introspection dictionaries are lists, and
`apply_single_readout` compares such a list against the int `wire - 1`;
under Python `==`, an int never equals a list. -/
inductive PyVal where
  | int (n : Int)
  | list (l : List PyVal)

mutual

/-- Python `==` on such values: ints compare by value, lists elementwise;
an int and a list are never equal (no exception — just `False`). -/
def pyEq : PyVal → PyVal → Bool
  | .int a, .int b => a == b
  | .list a, .list b => pyEqList a b
  | _, _ => false

/-- Python `==` on lists of values, elementwise. -/
def pyEqList : List PyVal → List PyVal → Bool
  | [], [] => true
  | x :: xs, y :: ys => pyEq x y && pyEqList xs ys
  | _, _ => false

end

/-- Entry of `SNOWFLURRY_OPERATION_MAP`: either a format-string template for
the Julia expression, or the `NotImplementedError` sentinel the source stores
for recognised-but-unsupported gates. -/
inductive MapEntry where
  | impl (template : String)
  | notImplemented
deriving DecidableEq, Repr

/-- The `SNOWFLURRY_OPERATION_MAP` dictionary from the source, in source
order.  (`QubitUnitary` appears twice in the source dict with the same
sentinel value; both lines are kept — lookup takes the first, which agrees
with the Python dict's last-write-wins since the values coincide.) -/
def SNOWFLURRY_OPERATION_MAP : List (String × MapEntry) := [
  ("PauliX", .impl "sigma_x({0})"),
  ("PauliY", .impl "sigma_y({0})"),
  ("PauliZ", .impl "sigma_z({0})"),
  ("Hadamard", .impl "hadamard({0})"),
  ("CNOT", .impl "control_x({0},{1})"),
  ("CZ", .impl "control_z({0},{1})"),
  ("SWAP", .impl "swap({0},{1})"),
  ("ISWAP", .impl "iswap({0},{1})"),
  ("RX", .impl "rotation_x({1},{0})"),
  ("RY", .impl "rotation_y({1},{0})"),
  ("RZ", .impl "rotation_z({1},{0})"),
  ("Identity", .impl "identity_gate({0})"),
  ("CSWAP", .notImplemented),
  ("CRX", .impl "controlled(rotation_x({1},{0}),{1})"),
  ("CRY", .notImplemented),
  ("CRZ", .notImplemented),
  ("PhaseShift", .impl "phase_shift({1},{0})"),
  ("QubitStateVector", .notImplemented),
  ("StatePrep", .notImplemented),
  ("Toffoli", .impl "toffoli({0},{1},{2})"),
  ("QubitUnitary", .notImplemented),
  ("U1", .notImplemented),
  ("U2", .notImplemented),
  ("U3", .impl "universal({3},{0},{1},{2})"),
  ("IsingZZ", .notImplemented),
  ("IsingYY", .notImplemented),
  ("IsingXX", .notImplemented),
  ("T", .impl "pi_8({0})"),
  ("Rot", .impl "rotation({3},{0},{1})"),
  ("QubitUnitary", .notImplemented),
  ("QFT", .notImplemented)
]

/-- Dictionary lookup, `op.name in SNOWFLURRY_OPERATION_MAP` /
`SNOWFLURRY_OPERATION_MAP[op.name]`. -/
def lookupMap (name : String) : Option MapEntry :=
  SNOWFLURRY_OPERATION_MAP.lookup name

/-- One step of Python `str.format` substitution: scanning the template
characters; `some acc` is the state inside a `{...}` field whose index digits
read so far give `acc`.  The templates above only ever use explicit numeric
fields `{0}`..`{3}` — escaped braces and auto-numbered `\x7b\x7d` fields do
not occur and are not modelled (they yield `none`).  A field index out of
range, as in Python, raises (`none`). -/
def formatAux (args : List String) : Option Nat → List Char → Option String
  | none, [] => some ""
  | some _, [] => none
  | none, c :: rest =>
    if c = '{' then formatAux args (some 0) rest
    else (formatAux args none rest).map fun t => String.singleton c ++ t
  | some acc, c :: rest =>
    if c = '}' then
      match args.get? acc with
      | some a => (formatAux args none rest).map fun t => a ++ t
      | none => none
    else if c.isDigit then formatAux args (some (acc * 10 + (c.toNat - 48))) rest
    else none

/-- Python `template.format(*args)` on the map's templates. -/
def pyFormat (template : String) (args : List String) : Option String :=
  formatAux args none template.data

/-- A source-circuit operation after `map_to_standard_wires()`: name, the
printed forms of its numeric parameters (the converter only ever formats
them into the template, never inspects them), and 0-based wire indices. -/
structure Operation where
  name : String
  parameters : List String
  wires : List Nat
deriving DecidableEq, Repr

/-- Models `isinstance(op, qml.operation.StatePrepBase)`: the
state-preparation operations PennyLane ships are `StatePrep`,
`QubitStateVector`, `BasisState` and `QutritBasisState`.  The first two
names appear in the mapping table (as NotImplementedError sentinels); the
last two are absent from it, which matters for the prep check at the head
of `convert_circuit`. -/
def isStatePrepBase (op : Operation) : Bool :=
  op.name = "StatePrep" || op.name = "QubitStateVector" ||
    op.name = "BasisState" || op.name = "QutritBasisState"

/-- An instruction of the Snowflurry target circuit.
`pushedGate e` is the result of `Main.eval("push!(sf_circuit, e)")` for a
formatted template `e`; its backend-native printed form is produced by Julia
and is outside this source, so the introspection layer's behaviour on it is
not modelled (no claim needs it).  `gateObj`/`readout` are backend-native
instructions in the printed forms the source docstring documents;
`unclassifiable` is an instruction whose printed form contains neither
`Gate Object` nor `Readout`. -/
inductive JlInstruction where
  | pushedGate (expr : String)
  | gateObj (name : String) (connected_qubits : List Nat)
  | readout (connected_qubit : Nat) (destination_bit : Nat)
  | unclassifiable (reprStr : String)
deriving DecidableEq, Repr

/-- The Snowflurry `QuantumCircuit`: qubit count, bit count, ordered
instructions. -/
structure SfCircuit where
  qubit_count : Nat
  bit_count : Nat
  instructions : List JlInstruction
deriving DecidableEq, Repr

/-- The formatting arguments of one operation:
`parameters = op.parameters + [i + 1 for i in op.wires.tolist()]` —
every wire index is shifted by exactly +1 (0-based PennyLane to 1-based
Snowflurry) before substitution. -/
def fmtArgs (op : Operation) : List String :=
  op.parameters ++ op.wires.map (fun w => toString (w + 1))

/-- The diagnostic `print(f"... is not implemented yet, skipping...")`. -/
def notImplementedMsg (name : String) : String :=
  name ++ " is not implemented yet, skipping..."

/-- The diagnostic `print(f"... is not supported by this device. skipping...")`. -/
def notSupportedMsg (name : String) : String :=
  name ++ " is not supported by this device. skipping..."

/-- The translation of one implemented operation: the formatted Julia gate
expression pushed onto `sf_circuit` (`none` when the name is unknown,
unimplemented, or formatting raises). -/
def translateOp (op : Operation) : Option String :=
  match lookupMap op.name with
  | some (.impl t) => pyFormat t (fmtArgs op)
  | _ => none

/-- The gate loop of `convert_circuit` over the (possibly prep-stripped)
operation list: returns the pushed instructions and the printed diagnostics,
in order; `none` models an exception escaping the loop (a format field out
of range). -/
def convertLoop : List Operation → Option (List JlInstruction × List String)
  | [] => some ([], [])
  | op :: rest =>
    match lookupMap op.name with
    | none =>
      (convertLoop rest).map fun p => (p.1, notSupportedMsg op.name :: p.2)
    | some .notImplemented =>
      (convertLoop rest).map fun p => (p.1, notImplementedMsg op.name :: p.2)
    | some (.impl t) =>
      match pyFormat t (fmtArgs op) with
      | none => none
      | some g => (convertLoop rest).map fun p => (.pushedGate g :: p.1, p.2)

/-- `len(pennylane_circuit.op_wires)`: the number of distinct wires used by
the circuit's operations. -/
def opWiresCount (ops : List Operation) : Nat :=
  ((ops.map Operation.wires).flatten).dedup.length

/-- `convert_circuit`: build `Main.sf_circuit` with
`QuantumCircuit(qubit_count=wires_nb)` (Snowflurry defaults the bit count to
the qubit count) and push the translation of every operation, skipping a
leading state-preparation operation (`operations[bool(prep):]`).  Returns
the circuit and the printed diagnostics. -/
def convert_circuit (ops : List Operation) : Option (SfCircuit × List String) :=
  let wires_nb := opWiresCount ops
  let body :=
    match ops with
    | [] => convertLoop []
    | first :: rest =>
      if isStatePrepBase first then convertLoop rest else convertLoop (first :: rest)
  body.map fun p => (⟨wires_nb, wires_nb, p.1⟩, p.2)

/-- One introspection dictionary `{"gate": ..., "connected_qubits": ...}`
produced by `get_circuit_as_dictionary`. -/
structure OpData where
  gate : String
  connected_qubits : PyVal

/-- Boolean equality of introspection dictionaries (Python `==`). -/
def opDataEq (a b : OpData) : Bool :=
  a.gate = b.gate && pyEq a.connected_qubits b.connected_qubits

/-- The body of one iteration of the loop in `get_circuit_as_dictionary`:
given the value of the Python local `op_data` before the iteration
(`none` = not yet assigned), the value after the `try/except`.
A Gate object's repr matches `"Gate Object" in gate_str` and the regex
extracts its name; a Readout object's repr matches `"Readout" in gate_str`;
any other repr fires neither `if`, raises nothing, and leaves `op_data`
untouched.  (The printed form of a gate pushed as a formatted expression is
produced by the external backend and is not derivable from this source;
circuits in the introspection claims use the documented `gateObj` /
`readout` / `unclassifiable` forms, so `pushedGate` is conservatively left
unparsed here — no theorem below depends on that case.) -/
def classifyStep (prev : Option OpData) : JlInstruction → Option OpData
  | .gateObj name cq => some ⟨name, .list (cq.map PyVal.int)⟩
  | .readout q _ => some ⟨"Readout", .list [PyVal.int q]⟩
  | .pushedGate _ => prev
  | .unclassifiable _ => prev

/-- The loop of `get_circuit_as_dictionary`: `ops.append(op_data)` runs on
every iteration with whatever `op_data` currently holds; if `op_data` has
never been assigned (first instruction unclassifiable), the append raises
`UnboundLocalError` (`none`). -/
def gcadLoop (prev : Option OpData) : List JlInstruction → Option (List OpData)
  | [] => some []
  | inst :: rest =>
    match classifyStep prev inst with
    | none => none
    | some d => (gcadLoop (some d) rest).map fun l => d :: l

/-- `get_circuit_as_dictionary`: the backend circuit's instructions as
`{gate, connected_qubits}` dictionaries. -/
def get_circuit_as_dictionary (c : SfCircuit) : Option (List OpData) :=
  gcadLoop none c.instructions

/-- `has_readout`: true iff some introspection dictionary has gate
`"Readout"` (`none` when introspection raises). -/
def has_readout (c : SfCircuit) : Option Bool :=
  (get_circuit_as_dictionary c).map fun ops =>
    ops.any fun op => op.gate = "Readout"

/-- `remove_readouts`: the source computes the filtered dictionary list
`new_ops` but then constructs the new `QuantumCircuit` from the original
`Main.sf_circuit.instructions`, so the returned circuit keeps every
instruction, readouts included; `new_ops` is dead. -/
def remove_readouts (c : SfCircuit) : Option SfCircuit :=
  (get_circuit_as_dictionary c).map fun ops =>
    let new_ops := ops.filter fun op => op.gate ≠ "Readout"
    { qubit_count := c.qubit_count
      bit_count := c.bit_count
      instructions := c.instructions }

/-- `apply_single_readout(wire)`: scans the introspection dictionaries and
returns early when some Readout dictionary satisfies
`op["connected_qubits"] == wire - 1` — a Python comparison of a list with an
int; otherwise pushes `readout(wire+1, wire+1)`.  `wire` is the caller's
0-based index. -/
def apply_single_readout (c : SfCircuit) (wire : Nat) : Option SfCircuit :=
  (get_circuit_as_dictionary c).map fun ops =>
    if ops.any (fun op =>
        op.gate = "Readout" && pyEq op.connected_qubits (.int ((wire : Int) - 1)))
    then c
    else { c with instructions := c.instructions ++ [.readout (wire + 1) (wire + 1)] }

/-- An observable carried by a measurement process, as far as the converter
touches it: its wires (0-based), whether it exposes a matrix
(`obs.has_matrix`), and an opaque handle for `qml.matrix(obs)`. -/
structure Obs where
  wires : List Nat
  has_matrix : Bool
  matrixHandle : Nat
deriving DecidableEq, Repr

/-- `apply_readouts(wires_nb, obs)`: with no observable, push one
`readout(wire+1, wire+1)` per wire of `range(wires_nb)`; with an observable,
apply a single readout on `obs.wires[0]` (raising `IndexError` when the
observable has no wires). -/
def apply_readouts (c : SfCircuit) (wires_nb : Nat) (obs : Option Obs) : Option SfCircuit :=
  match obs with
  | none =>
    some { c with instructions :=
      c.instructions ++ (List.range wires_nb).map fun w => .readout (w + 1) (w + 1) }
  | some o =>
    match o.wires with
    | [] => none
    | w :: _ => apply_single_readout c w

/-- The remote client built in `__init__`. -/
structure Client where
  host : String
  user : String
  access_token : String
  project_id : String
deriving DecidableEq, Repr

/-- The client construction of `__init__`: `Main.currentClient` is a real
client exactly when all four of host, user, access_token, project_id have
non-zero length; otherwise it is `None`. -/
def initClient (host user access_token project_id : String) : Option Client :=
  if host.length ≠ 0 ∧ user.length ≠ 0 ∧ access_token.length ≠ 0 ∧ project_id.length ≠ 0
  then some ⟨host, user, access_token, project_id⟩
  else none

/-- The external backend calls, as oracles.  `simulate_shots` returns the
per-shot outcome strings; `simulateSV` / `get_probs` / `expected_value` /
`get_result` return opaque handles for backend results the converter passes
through unchanged; `remoteFinalStatus` is the terminal status the polling
loop of the remote path ends with (a poll that never reaches a terminal
status does not terminate and is outside the model); `pyInt` is
`np.asarray(...).astype(int)` on one outcome. -/
structure Backend where
  simulate_shots : SfCircuit → Nat → List String
  simulateSV : SfCircuit → Nat
  get_probs : SfCircuit → Option (List Nat) → Nat
  expected_value : Nat → Nat → Int
  remoteFinalStatus : Client → SfCircuit → Nat → String
  get_result : Client → SfCircuit → Nat → Nat
  pyInt : String → Int

/-- `dict(Counter(shots_results))`: each distinct outcome with its number of
occurrences. -/
def counterDict (l : List String) : List (String × Nat) :=
  l.dedup.map fun k => (k, l.count k)

/-- A value returned by `measure`, tagged by which `return` produced it.
`notImplementedErrorValue` is the final `return NotImplementedError` — the
exception class returned as an ordinary value, not raised. -/
inductive MeasResult where
  | counts (freq : List (String × Nat))
  | samples (outcomes : List Int)
  | probsVal (handle : Nat)
  | expval (v : Int)
  | statevec (handle : Nat)
  | remote (handle : Nat)
  | notImplementedErrorValue
deriving DecidableEq, Repr

/-- Whether a `measure` result came from the remote-execution path. -/
def MeasResult.isRemote : MeasResult → Bool
  | .remote _ => true
  | _ => false

/-- A measurement process, by the `isinstance` classes `measure` tests.
`unsupported` is a measurement matching none of the tested classes (e.g. a
classical-shadow request).  The PennyLane classes `ExpectationMP` and
`StateMP` both satisfy `isinstance(mp, StateMeasurement)`, which the code
reaches when the expectation branch falls through (observable absent or
without matrix). -/
inductive MP where
  | countsMP (obs : Option Obs)
  | sampleMP (obs : Option Obs)
  | probsMP (wires : List Nat)
  | expvalMP (obs : Option Obs)
  | stateMP
  | unsupported
deriving DecidableEq, Repr

/-- The `isinstance(mp, StateMeasurement)` branch of `measure`: strip
readouts (into a local variable — the global circuit is not replaced) when
any are present, then simulate the state vector.  The returned circuit state
is the unchanged global one. -/
def stateBranch (be : Backend) (sf : SfCircuit) : Option (SfCircuit × MeasResult) :=
  match has_readout sf with
  | none => none
  | some true =>
    match remove_readouts sf with
    | none => none
    | some sf2 => some (sf, .statevec (be.simulateSV sf2))
  | some false => some (sf, .statevec (be.simulateSV sf))

/-- The shots-capable branch shared by the Counts and Sample handlers: local
path applies readouts to the global circuit and runs `simulate_shots` on the
updated circuit; remote path submits and polls — on a terminal `succeeded`
it returns the remote result, on any other terminal status it falls out of
the branch (and, for these measurement classes, through every later
`isinstance`, down to `return NotImplementedError`). -/
def shotsBranch (be : Backend) (client : Option Client) (opWiresNb : Nat)
    (obs : Option Obs) (sf : SfCircuit) (shots : Nat)
    (mk : List String → MeasResult) : Option (SfCircuit × MeasResult) :=
  match client with
  | none =>
    match apply_readouts sf opWiresNb obs with
    | none => none
    | some sf1 => some (sf1, mk (be.simulate_shots sf1 shots))
  | some cl =>
    if be.remoteFinalStatus cl sf shots = "succeeded"
    then some (sf, .remote (be.get_result cl sf shots))
    else some (sf, .notImplementedErrorValue)

/-- `measure(mp, sf_circuit, shots)`: the per-measurement-kind dispatcher.
The circuit component of the result is the global `Main.sf_circuit` after
the call (the only mutation is `apply_readouts` on the local shots paths). -/
def measure (be : Backend) (client : Option Client) (opWiresNb : Nat)
    (mp : MP) (sf : SfCircuit) (shots : Nat) : Option (SfCircuit × MeasResult) :=
  match mp with
  | .countsMP obs =>
    shotsBranch be client opWiresNb obs sf shots fun l => .counts (counterDict l)
  | .sampleMP obs =>
    shotsBranch be client opWiresNb obs sf shots fun l => .samples (l.map be.pyInt)
  | .probsMP wires =>
    if wires.length = 0
    then some (sf, .probsVal (be.get_probs sf none))
    else some (sf, .probsVal (be.get_probs sf (some (wires.map fun i => i + 1))))
  | .expvalMP obs =>
    match obs with
    | some o =>
      if o.has_matrix
      then some (sf, .expval (be.expected_value o.matrixHandle (be.simulateSV sf)))
      else stateBranch be sf
    | none => stateBranch be sf
  | .stateMP => stateBranch be sf
  | .unsupported => some (sf, .notImplementedErrorValue)

/-- The shape `measure_final_state` returns: a single measurement's result
unwrapped, or a tuple. -/
inductive PyResult where
  | single (r : MeasResult)
  | tuple (rs : List MeasResult)
deriving DecidableEq, Repr

/-- The sequential evaluation of the tuple generator
`tuple(self.measure(mp, sf_circuit, shots) for mp in circuit.measurements)`:
each call sees the global circuit as the previous call left it. -/
def measureAll (be : Backend) (client : Option Client) (opWiresNb : Nat) :
    List MP → SfCircuit → Nat → Option (SfCircuit × List MeasResult)
  | [], sf, _ => some (sf, [])
  | mp :: rest, sf, shots =>
    match measure be client opWiresNb mp sf shots with
    | none => none
    | some (sf1, r) =>
      (measureAll be client opWiresNb rest sf1 shots).map fun p => (p.1, r :: p.2)

/-- `measure_final_state`: `shots = circuit.shots.total_shots or 1`; with a
single measurement the result is returned unwrapped, otherwise a tuple of
per-measurement results. -/
def measure_final_state (be : Backend) (client : Option Client) (opWiresNb : Nat)
    (measurements : List MP) (sf : SfCircuit) (totalShots : Option Nat) :
    Option (SfCircuit × PyResult) :=
  let shots := totalShots.getD 1
  match measurements with
  | [mp] =>
    (measure be client opWiresNb mp sf shots).map fun p => (p.1, .single p.2)
  | ms =>
    (measureAll be client opWiresNb ms sf shots).map fun p => (p.1, .tuple p.2)

/-- The instruction pushed for an implemented operation (meaningful when
`(translateOp op).isSome`; used to state pointwise correspondence). -/
def translated (op : Operation) : JlInstruction :=
  .pushedGate ((translateOp op).getD "")

/-- Whether a target-circuit instruction is a Readout. -/
def isReadoutInstr : JlInstruction → Bool
  | .readout _ _ => true
  | _ => false

/-- Number of Readout instructions of the circuit targeting qubit `q`
(1-based). -/
def countReadoutsOn (c : SfCircuit) (q : Nat) : Nat :=
  c.instructions.countP fun i =>
    match i with
    | .readout cq _ => cq = q
    | _ => false

/-- A concrete backend oracle, used to evaluate the model on closed
inputs. -/
def demoBackend : Backend where
  simulate_shots := fun _ shots => List.replicate shots "00"
  simulateSV := fun c => c.instructions.length
  get_probs := fun c w => c.qubit_count + (w.getD []).length
  expected_value := fun m s => (m : Int) + (s : Int)
  remoteFinalStatus := fun _ _ _ => "succeeded"
  get_result := fun _ _ _ => 7
  pyInt := fun s => (s.length : Int)

end SF

namespace SF

/-- A string has non-zero length exactly when it is not the empty string. -/
theorem string_length_ne_zero_iff (s : String) : s.length ≠ 0 ↔ s ≠ "" := by
  constructor
  · intro h hs
    exact h (by rw [hs]; rfl)
  · intro h hl
    apply h
    cases s with
    | mk data =>
      cases data with
      | nil => rfl
      | cons c cs => simp [String.length] at hl

/-- An operation with an implemented, formattable template is not a
state-preparation operation (`StatePrep` and `QubitStateVector` map to the
NotImplementedError sentinel; `BasisState` and `QutritBasisState` are
absent from the table). -/
theorem not_statePrep_of_implemented (op : Operation) (h : (translateOp op).isSome) :
    isStatePrepBase op = false := by
  unfold isStatePrepBase
  by_cases h1 : op.name = "StatePrep"
  · exfalso
    unfold translateOp at h
    rw [h1, show lookupMap "StatePrep" = some MapEntry.notImplemented from rfl] at h
    simp at h
  · by_cases h2 : op.name = "QubitStateVector"
    · exfalso
      unfold translateOp at h
      rw [h2, show lookupMap "QubitStateVector" = some MapEntry.notImplemented from rfl] at h
      simp at h
    · by_cases h3 : op.name = "BasisState"
      · exfalso
        unfold translateOp at h
        rw [h3, show lookupMap "BasisState" = none from rfl] at h
        simp at h
      · by_cases h4 : op.name = "QutritBasisState"
        · exfalso
          unfold translateOp at h
          rw [h4, show lookupMap "QutritBasisState" = none from rfl] at h
          simp at h
        · simp [h1, h2, h3, h4]

/-- The gate loop on a list of implemented operations pushes exactly one
instruction per operation, in order, with no diagnostics. -/
theorem convertLoop_all_implemented (ops : List Operation)
    (h : ∀ op ∈ ops, (translateOp op).isSome) :
    convertLoop ops = some (ops.map translated, []) := by
  induction ops with
  | nil => rfl
  | cons op rest ih =>
    have hop := h op (by simp)
    have hrest : ∀ o ∈ rest, (translateOp o).isSome := fun o ho => h o (by simp [ho])
    unfold convertLoop
    unfold translateOp at hop
    cases hl : lookupMap op.name with
    | none => rw [hl] at hop; simp at hop
    | some e =>
      cases e with
      | notImplemented => rw [hl] at hop; simp at hop
      | impl t =>
        rw [hl] at hop
        simp only [] at hop
        cases hf : pyFormat t (fmtArgs op) with
        | none => rw [hf] at hop; simp at hop
        | some g =>
          rw [ih hrest]
          simp [translated, translateOp, hl, hf]

/-- An implemented operation's translation, unpacked: the table yields a
template, the template formats, and `translateOp` is that formatted gate. -/
theorem translateOp_spec (op : Operation) (h : (translateOp op).isSome) :
    ∃ t g, lookupMap op.name = some (.impl t) ∧ pyFormat t (fmtArgs op) = some g ∧
      translateOp op = some g := by
  unfold translateOp at h ⊢
  cases hl : lookupMap op.name with
  | none => rw [hl] at h; simp at h
  | some e =>
    cases e with
    | notImplemented => rw [hl] at h; simp at h
    | impl t =>
      rw [hl] at h
      simp only [] at h
      cases hf : pyFormat t (fmtArgs op) with
      | none => rw [hf] at h; simp at h
      | some g =>
        refine ⟨t, g, rfl, hf, ?_⟩
        simp only []
        exact hf

/-- C1: for every circuit whose operations all map to implemented templates
(and format without error), `convert_circuit` is order-preserving — it
succeeds with no diagnostics, the instruction list has one entry per source
operation, and the n-th pushed instruction is the n-th operation's template
formatted with its parameters followed by its wire indices each shifted by
exactly +1; no operation is duplicated or reordered. -/
theorem convert_circuit_order_preserving (ops : List Operation)
    (h : ∀ op ∈ ops, (translateOp op).isSome) :
    ∃ c, convert_circuit ops = some (c, []) ∧
      c.qubit_count = opWiresCount ops ∧
      ∃ hlen : c.instructions.length = ops.length,
        ∀ i (hi : i < ops.length), ∃ t g,
          lookupMap (ops.get ⟨i, hi⟩).name = some (.impl t) ∧
          pyFormat t ((ops.get ⟨i, hi⟩).parameters ++
            (ops.get ⟨i, hi⟩).wires.map (fun w => toString (w + 1))) = some g ∧
          c.instructions.get ⟨i, by rw [hlen]; exact hi⟩ = .pushedGate g := by
  have hloop := convertLoop_all_implemented ops h
  have hbody :
      convert_circuit ops = some (⟨opWiresCount ops, opWiresCount ops, ops.map translated⟩, []) := by
    unfold convert_circuit
    cases ops with
    | nil => rw [hloop]; rfl
    | cons first rest =>
      have hsp := not_statePrep_of_implemented first (h first (by simp))
      simp only [hsp, Bool.false_eq_true, if_false, hloop, Option.map_some]
      rfl
  refine ⟨_, hbody, rfl, by simp, ?_⟩
  intro i hi
  obtain ⟨t, g, hl, hf, htr⟩ := translateOp_spec _ (h _ (List.get_mem ops i hi))
  refine ⟨t, g, hl, hf, ?_⟩
  show (ops.map translated).get ⟨i, by simp [hi]⟩ = .pushedGate g
  have hmap : (ops.map translated).get ⟨i, by simp [hi]⟩ = translated (ops.get ⟨i, hi⟩) := by
    simp [List.get_eq_getElem]
  rw [hmap]
  have htr2 : translateOp ops[i] = some g := htr
  simp [translated, htr2]

/-- Witness for C1 at a concrete two-gate circuit (Hadamard on wire 0,
CNOT on wires 0 and 1). -/
theorem convert_circuit_order_preserving_witness :
    ∃ c, convert_circuit [⟨"Hadamard", [], [0]⟩, ⟨"CNOT", [], [0, 1]⟩] = some (c, []) ∧
      c.qubit_count = opWiresCount [⟨"Hadamard", [], [0]⟩, ⟨"CNOT", [], [0, 1]⟩] ∧
      ∃ hlen : c.instructions.length = ([⟨"Hadamard", [], [0]⟩, ⟨"CNOT", [], [0, 1]⟩] : List Operation).length,
        ∀ i (hi : i < ([⟨"Hadamard", [], [0]⟩, ⟨"CNOT", [], [0, 1]⟩] : List Operation).length), ∃ t g,
          lookupMap (([⟨"Hadamard", [], [0]⟩, ⟨"CNOT", [], [0, 1]⟩] : List Operation).get ⟨i, hi⟩).name = some (.impl t) ∧
          pyFormat t ((([⟨"Hadamard", [], [0]⟩, ⟨"CNOT", [], [0, 1]⟩] : List Operation).get ⟨i, hi⟩).parameters ++
            (([⟨"Hadamard", [], [0]⟩, ⟨"CNOT", [], [0, 1]⟩] : List Operation).get ⟨i, hi⟩).wires.map (fun w => toString (w + 1))) = some g ∧
          c.instructions.get ⟨i, by rw [hlen]; exact hi⟩ = .pushedGate g :=
  convert_circuit_order_preserving [⟨"Hadamard", [], [0]⟩, ⟨"CNOT", [], [0, 1]⟩]
    (by intro op hop
        simp only [List.mem_cons, List.not_mem_nil, or_false] at hop
        rcases hop with rfl | rfl <;> rfl)

/-- C7 (counterexample to the claim as stated): `BasisState` is absent from
the mapping table, yet it is a state-preparation operation, and at the head
of the circuit the prep check strips it before the gate loop runs — the
supported Hadamard that follows is emitted, but the diagnostic list is
empty: no diagnostic referencing the unknown gate's name is recorded. -/
theorem convert_circuit_basisstate_head_no_diagnostic :
    lookupMap "BasisState" = none ∧
    isStatePrepBase ⟨"BasisState", [], [0]⟩ = true ∧
    convert_circuit [⟨"BasisState", [], [0]⟩, ⟨"Hadamard", [], [0]⟩] =
      some (⟨1, 1, [.pushedGate "hadamard(1)"]⟩, []) :=
  ⟨rfl, rfl, rfl⟩

/-- C7 (amended): a circuit starting with an operation whose name is absent
from the mapping table AND which is not a state-preparation operation
(a state-prep head such as `BasisState` is stripped silently by the prep
check), followed by a supported operation, still emits the supported
operation (first in the target circuit, before whatever the remaining
operations contribute): the unknown operation is skipped, not translated,
and the diagnostic list starts with the skip message that references the
unknown gate's name. -/
theorem convert_circuit_unknown_then_supported (unkOp supOp : Operation)
    (rest : List Operation)
    (h1 : lookupMap unkOp.name = none)
    (hsp : isStatePrepBase unkOp = false)
    (h2 : (translateOp supOp).isSome) :
    ∃ g, translateOp supOp = some g ∧
      convert_circuit (unkOp :: supOp :: rest) =
        (convertLoop rest).map fun p =>
          (⟨opWiresCount (unkOp :: supOp :: rest), opWiresCount (unkOp :: supOp :: rest),
            .pushedGate g :: p.1⟩,
           notSupportedMsg unkOp.name :: p.2) := by
  obtain ⟨t, g, hl, hf, htr⟩ := translateOp_spec supOp h2
  refine ⟨g, htr, ?_⟩
  have hcl : convertLoop (unkOp :: supOp :: rest) =
      (convertLoop rest).map fun p =>
        (JlInstruction.pushedGate g :: p.1, notSupportedMsg unkOp.name :: p.2) := by
    simp only [convertLoop, h1, hl, hf]
    cases convertLoop rest with
    | none => rfl
    | some p => rfl
  simp only [convert_circuit, hsp, Bool.false_eq_true, if_false, hcl]
  cases convertLoop rest with
  | none => rfl
  | some p => rfl

/-- Witness for C7 (amended): an unknown, non-state-prep `FooGate` on wire 0
followed by a Hadamard on wire 0; the Hadamard is emitted and the diagnostic
names `FooGate`. -/
theorem convert_circuit_unknown_then_supported_witness :
    ∃ g, translateOp ⟨"Hadamard", [], [0]⟩ = some g ∧
      convert_circuit [⟨"FooGate", [], [0]⟩, ⟨"Hadamard", [], [0]⟩] =
        (convertLoop []).map fun p =>
          (⟨opWiresCount [⟨"FooGate", [], [0]⟩, ⟨"Hadamard", [], [0]⟩],
            opWiresCount [⟨"FooGate", [], [0]⟩, ⟨"Hadamard", [], [0]⟩],
            .pushedGate g :: p.1⟩,
           notSupportedMsg "FooGate" :: p.2) :=
  convert_circuit_unknown_then_supported ⟨"FooGate", [], [0]⟩ ⟨"Hadamard", [], [0]⟩ []
    (by rfl) (by rfl) (by rfl)

/-- C2 (counterexample to the claim, exhibiting the code's behaviour):
`remove_readouts`, applied to a circuit holding a Hadamard gate and a
Readout, returns the circuit unchanged — the Readout instruction is still
present, because the source passes the original instruction list to the new
`QuantumCircuit` and never uses the filtered `new_ops`. -/
theorem remove_readouts_keeps_readouts :
    ∃ c, remove_readouts ⟨1, 1, [.gateObj "Snowflurry.Hadamard" [1], .readout 1 1]⟩ = some c ∧
      c.instructions.any isReadoutInstr = true ∧
      c = ⟨1, 1, [.gateObj "Snowflurry.Hadamard" [1], .readout 1 1]⟩ :=
  ⟨⟨1, 1, [.gateObj "Snowflurry.Hadamard" [1], .readout 1 1]⟩, rfl, rfl, rfl⟩

/-- C3 (counterexample to the claim, exhibiting the code's behaviour):
starting from a circuit with no instructions, applying
`apply_single_readout` twice on wire 0 leaves two Readout instructions
targeting qubit 1 — the duplicate check compares the `connected_qubits`
list against the integer `wire - 1`, which is never true, so the second
call appends another readout instead of being a no-op. -/
theorem apply_single_readout_not_idempotent :
    ∃ c1 c2, apply_single_readout ⟨1, 1, []⟩ 0 = some c1 ∧
      apply_single_readout c1 0 = some c2 ∧
      countReadoutsOn c2 1 = 2 :=
  ⟨⟨1, 1, [.readout 1 1]⟩, ⟨1, 1, [.readout 1 1, .readout 1 1]⟩, rfl, rfl, rfl⟩

/-- C9 (counterexample to the claim, exhibiting the code's behaviour): on a
circuit whose second instruction is unclassifiable, `get_circuit_as_dictionary`
raises nothing and appends the previous iteration's dictionary again — the
Hadamard entry appears twice and the unclassifiable instruction is
represented by stale data; when the FIRST instruction is unclassifiable,
the `ops.append(op_data)` reads an unassigned local and the whole call
raises (`none`). -/
theorem get_circuit_as_dictionary_appends_stale :
    get_circuit_as_dictionary ⟨1, 1, [.gateObj "Snowflurry.Hadamard" [1], .unclassifiable "mystery"]⟩ =
      some [⟨"Snowflurry.Hadamard", .list [.int 1]⟩, ⟨"Snowflurry.Hadamard", .list [.int 1]⟩] ∧
    get_circuit_as_dictionary ⟨1, 1, [.unclassifiable "mystery"]⟩ = none := by
  exact ⟨rfl, rfl⟩

/-- C8 (counterexample to the claim, exhibiting the code's behaviour): for a
measurement kind with no matching handler, `measure` does not fail — it
returns the `NotImplementedError` class as an ordinary value, and
`measure_final_state` mixes that value into the result tuple next to a
sibling measurement's legitimate result. -/
theorem unsupported_measurement_returned_as_value :
    measure demoBackend none 1 .unsupported ⟨1, 1, []⟩ 5 =
      some (⟨1, 1, []⟩, .notImplementedErrorValue) ∧
    measure_final_state demoBackend none 1 [.probsMP [], .unsupported] ⟨1, 1, []⟩ (some 5) =
      some (⟨1, 1, []⟩, .tuple [.probsVal 1, .notImplementedErrorValue]) := by
  exact ⟨rfl, rfl⟩

/-- C6: the Probabilities branch of `measure` never mutates the target
circuit — the circuit after the call is exactly the circuit before — and
the backend probability query runs over all wires when the measurement's
wire list is empty, else over that wire list shifted to 1-based. -/
theorem probs_branch_frame (be : Backend) (client : Option Client) (opWiresNb : Nat)
    (wires : List Nat) (sf : SfCircuit) (shots : Nat) :
    measure be client opWiresNb (.probsMP wires) sf shots =
      some (sf, .probsVal (be.get_probs sf
        (if wires.length = 0 then none else some (wires.map fun i => i + 1)))) := by
  by_cases h : wires.length = 0 <;> simp [measure, h]

/-- C4: a Counts measurement on the local path (no client) applies the
readouts, runs the shot execution on the updated circuit, and returns the
frequency dictionary `dict(Counter(shots_results))`; whenever the backend
returns one outcome per shot, the dictionary's values sum to exactly
`shots`. -/
theorem counts_local_sums_to_shots (be : Backend) (opWiresNb : Nat) (obs : Option Obs)
    (sf sf1 : SfCircuit) (shots : Nat)
    (hr : apply_readouts sf opWiresNb obs = some sf1)
    (hlen : (be.simulate_shots sf1 shots).length = shots) :
    measure be none opWiresNb (.countsMP obs) sf shots =
      some (sf1, .counts (counterDict (be.simulate_shots sf1 shots))) ∧
    ((counterDict (be.simulate_shots sf1 shots)).map Prod.snd).sum = shots := by
  constructor
  · simp [measure, shotsBranch, hr]
  · conv_rhs => rw [← hlen]
    unfold counterDict
    rw [List.map_map]
    exact List.sum_map_count_dedup_eq_length (be.simulate_shots sf1 shots)

/-- Witness for C4: empty one-wire circuit, no observable, three shots all
returning `"00"`; the frequency dictionary sums to 3. -/
theorem counts_local_sums_to_shots_witness :
    measure demoBackend none 1 (.countsMP none) ⟨1, 1, []⟩ 3 =
      some (⟨1, 1, [.readout 1 1]⟩,
        .counts (counterDict (demoBackend.simulate_shots ⟨1, 1, [.readout 1 1]⟩ 3))) ∧
    ((counterDict (demoBackend.simulate_shots ⟨1, 1, [.readout 1 1]⟩ 3)).map Prod.snd).sum = 3 :=
  counts_local_sums_to_shots demoBackend 1 none ⟨1, 1, []⟩ ⟨1, 1, [.readout 1 1]⟩ 3
    (by rfl) (by rfl)

/-- A result of the StateMeasurement branch is never a remote result. -/
theorem stateBranch_not_remote (be : Backend) (sf : SfCircuit)
    (out : SfCircuit × MeasResult) (h : stateBranch be sf = some out) :
    out.2.isRemote = false := by
  unfold stateBranch at h
  cases hro : has_readout sf with
  | none => rw [hro] at h; simp at h
  | some b =>
    rw [hro] at h
    cases b with
    | true =>
      simp only [] at h
      cases hrr : remove_readouts sf with
      | none => rw [hrr] at h; simp at h
      | some sf2 =>
        rw [hrr] at h
        simp only [Option.some.injEq] at h
        rw [← h]
        rfl
    | false =>
      simp only [Option.some.injEq] at h
      rw [← h]
      rfl

/-- C5: remote execution is enabled (the constructor stores a real client)
exactly when all four of host, user, access_token, project_id are
non-empty; and with no client every measurement takes the local path — no
result of `measure` comes from the remote branch. -/
theorem remote_iff_all_fields_nonempty :
    (∀ host user access_token project_id,
      (initClient host user access_token project_id).isSome ↔
        (host ≠ "" ∧ user ≠ "" ∧ access_token ≠ "" ∧ project_id ≠ "")) ∧
    (∀ be opWiresNb mp sf shots out,
      measure be none opWiresNb mp sf shots = some out →
        out.2.isRemote = false) := by
  constructor
  · intro host user access_token project_id
    unfold initClient
    split_ifs with hc
    · exact iff_of_true (by simp)
        ⟨(string_length_ne_zero_iff _).mp hc.1,
         (string_length_ne_zero_iff _).mp hc.2.1,
         (string_length_ne_zero_iff _).mp hc.2.2.1,
         (string_length_ne_zero_iff _).mp hc.2.2.2⟩
    · refine iff_of_false (by simp) ?_
      intro hne
      exact hc ⟨(string_length_ne_zero_iff _).mpr hne.1,
                (string_length_ne_zero_iff _).mpr hne.2.1,
                (string_length_ne_zero_iff _).mpr hne.2.2.1,
                (string_length_ne_zero_iff _).mpr hne.2.2.2⟩
  · intro be opWiresNb mp sf shots out h
    cases mp with
    | countsMP obs =>
      simp only [measure, shotsBranch] at h
      cases hr : apply_readouts sf opWiresNb obs with
      | none => rw [hr] at h; simp at h
      | some sf1 =>
        rw [hr] at h
        simp only [Option.some.injEq] at h
        rw [← h]
        rfl
    | sampleMP obs =>
      simp only [measure, shotsBranch] at h
      cases hr : apply_readouts sf opWiresNb obs with
      | none => rw [hr] at h; simp at h
      | some sf1 =>
        rw [hr] at h
        simp only [Option.some.injEq] at h
        rw [← h]
        rfl
    | probsMP wires =>
      simp only [measure] at h
      split at h <;> (simp only [Option.some.injEq] at h; rw [← h]; rfl)
    | expvalMP obs =>
      simp only [measure] at h
      cases obs with
      | none => exact stateBranch_not_remote be sf out h
      | some o =>
        simp only [] at h
        split at h
        · simp only [Option.some.injEq] at h
          rw [← h]
          rfl
        · exact stateBranch_not_remote be sf out h
    | stateMP =>
      simp only [measure] at h
      exact stateBranch_not_remote be sf out h
    | unsupported =>
      simp only [measure, Option.some.injEq] at h
      rw [← h]
      rfl

/-- Witness for C5: all-nonempty credentials enable the client, and a
concrete local `measure` call yields a non-remote result. -/
theorem remote_iff_all_fields_nonempty_witness :
    ((initClient "h" "u" "t" "p").isSome ↔
      ("h" ≠ "" ∧ "u" ≠ "" ∧ "t" ≠ "" ∧ "p" ≠ "")) ∧
    MeasResult.isRemote ((⟨1, 1, []⟩ : SfCircuit), MeasResult.probsVal 1).2 = false :=
  ⟨remote_iff_all_fields_nonempty.1 "h" "u" "t" "p",
   remote_iff_all_fields_nonempty.2 demoBackend 1 (.probsMP []) ⟨1, 1, []⟩ 1
     ((⟨1, 1, []⟩ : SfCircuit), MeasResult.probsVal 1) (by rfl)⟩

/-- C10: with exactly one measurement request, `measure_final_state`
returns that measurement's result unwrapped; with two or more, it returns
a tuple of per-measurement results in the order of the measurement list —
one entry per measurement, the i-th obtained by a call to `measure` on the
i-th measurement (against the circuit state the previous calls left). -/
theorem measure_final_state_shape :
    (∀ be client opWiresNb mp sf totalShots,
      measure_final_state be client opWiresNb [mp] sf totalShots =
        (measure be client opWiresNb mp sf (totalShots.getD 1)).map
          fun p => (p.1, .single p.2)) ∧
    (∀ be client opWiresNb (ms : List MP) sf totalShots, 2 ≤ ms.length →
      measure_final_state be client opWiresNb ms sf totalShots =
        (measureAll be client opWiresNb ms sf (totalShots.getD 1)).map
          fun p => (p.1, .tuple p.2)) ∧
    (∀ be client opWiresNb (ms : List MP) sf shots sfEnd rs,
      measureAll be client opWiresNb ms sf shots = some (sfEnd, rs) →
        rs.length = ms.length ∧
        ∀ i (hi : i < ms.length) (hri : i < rs.length), ∃ sfIn sfOut,
          measure be client opWiresNb (ms.get ⟨i, hi⟩) sfIn shots =
            some (sfOut, rs.get ⟨i, hri⟩)) := by
  refine ⟨?_, ?_, ?_⟩
  · intro be client opWiresNb mp sf totalShots
    rfl
  · intro be client opWiresNb ms sf totalShots hlen
    match ms, hlen with
    | m1 :: m2 :: tail, _ => rfl
  · intro be client opWiresNb ms
    induction ms with
    | nil =>
      intro sf shots sfEnd rs h
      simp only [measureAll, Option.some.injEq] at h
      have hrs : ([] : List MeasResult) = rs := congrArg Prod.snd h
      refine ⟨by rw [← hrs]; rfl, ?_⟩
      intro i hi
      exact absurd hi (by simp)
    | cons mp rest ih =>
      intro sf shots sfEnd rs h
      simp only [measureAll] at h
      cases hm : measure be client opWiresNb mp sf shots with
      | none => rw [hm] at h; simp at h
      | some q =>
        obtain ⟨sf1, r⟩ := q
        rw [hm] at h
        have h2 : (measureAll be client opWiresNb rest sf1 shots).map
            (fun p => (p.1, r :: p.2)) = some (sfEnd, rs) := h
        cases hrest : measureAll be client opWiresNb rest sf1 shots with
        | none => rw [hrest] at h2; simp at h2
        | some p =>
          obtain ⟨sfE, rs2⟩ := p
          rw [hrest] at h2
          have h3 : ((sfE, r :: rs2) : SfCircuit × List MeasResult) = (sfEnd, rs) :=
            Option.some.inj h2
          have hrs : r :: rs2 = rs := congrArg Prod.snd h3
          subst hrs
          obtain ⟨ihlen, ihget⟩ := ih sf1 shots sfE rs2 (by rw [hrest])
          constructor
          · simp [ihlen]
          · intro i hi hri
            cases i with
            | zero => exact ⟨sf, sf1, hm⟩
            | succ j =>
              have hj : j < rest.length := by
                simpa using hi
              have hrj : j < rs2.length := by
                rw [ihlen]; exact hj
              obtain ⟨sfIn, sfOut, hcall⟩ := ihget j hj hrj
              exact ⟨sfIn, sfOut, hcall⟩

/-- Witness for C10: a two-measurement request gives a tuple with one
entry per measurement. -/
theorem measure_final_state_shape_witness :
    (measure_final_state demoBackend none 1 [.probsMP [], .unsupported] ⟨1, 1, []⟩ (some 5) =
      (measureAll demoBackend none 1 [.probsMP [], .unsupported] ⟨1, 1, []⟩ ((some 5).getD 1)).map
        fun p => (p.1, .tuple p.2)) ∧
    ([MeasResult.probsVal 1, MeasResult.notImplementedErrorValue].length =
      ([MP.probsMP [], MP.unsupported] : List MP).length) :=
  ⟨measure_final_state_shape.2.1 demoBackend none 1 [.probsMP [], .unsupported] ⟨1, 1, []⟩
      (some 5) (by decide),
   (measure_final_state_shape.2.2 demoBackend none 1 [.probsMP [], .unsupported] ⟨1, 1, []⟩
      5 ⟨1, 1, []⟩ [MeasResult.probsVal 1, MeasResult.notImplementedErrorValue] (by rfl)).1⟩

end SF
